import Mathlib

/-
Verification of the atom_box hazard-pointer library against its specification.

Shallow embedding conventions:
- Raw pointers are modelled as `Nat`, with `0` playing the role of the null
  pointer.  Heap allocation (`Box::into_raw`) is modelled by an allocation
  counter that starts at 1 and is incremented on every allocation, so every
  allocated address is non-zero.
- Atomic state is modelled by explicit state passing; each operation is a
  pure function from the pre-state to the post-state together with its
  return value.  Memory-ordering annotations (Acquire/Release/SeqCst fences)
  have no effect in this sequentialised embedding.
- Running a value's dropper is recorded by appending the value's address to
  a `dropped` log.
-/

/-- One hazard-pointer slot, `Node` in `src/domain/hazard_pointer_list.rs`:
a protected raw pointer (`ptr`, null = 0) and an `active` flag. -/
structure HazSlot where
  ptr : Nat
  active : Bool
deriving DecidableEq

/-- One retire-list entry, `struct Retire` in `src/domain/mod.rs`: the raw
address handed to `retire`.  The type-erased `retirable` dropper is modelled
by logging the address when the dropper is invoked. -/
structure Retire where
  ptr : Nat
deriving DecidableEq

/-- Settings of the `TimedCapped` reclaim strategy,
`TimedCappedSettings` in `src/domain/reclaim_strategy.rs`.  Times are
monotonic nanoseconds since the Unix epoch. -/
structure TimedCappedSettings where
  last_sync_time : Nat
  sync_timeout : Nat
  hazard_pointer_multiplier : Int
  retired_threshold : Int
deriving DecidableEq

/-- The reclamation strategy enum, `ReclaimStrategy` in
`src/domain/reclaim_strategy.rs`. -/
inductive ReclaimStrategy where
  | eager
  | timedCapped (settings : TimedCappedSettings)
  | manual
deriving DecidableEq

/-- `TimedCappedSettings::check_sync_time`: reclaim if the current time has
passed `last_sync_time` and the CAS advancing it by `sync_timeout` is won.
In this sequential embedding the CAS always succeeds, since the compare value
is the value just loaded. -/
def TimedCappedSettings.check_sync_time (s : TimedCappedSettings) (now : Nat) :
    Bool × TimedCappedSettings :=
  if s.last_sync_time < now then
    (true, { s with last_sync_time := now + s.sync_timeout })
  else
    (false, s)

/-- `TimedCappedSettings::should_reclaim`: fire if
`retired_count >= retired_threshold` and
`retired_count >= hazard_pointer_count * hazard_pointer_multiplier`,
otherwise fall back to the timer check. -/
def TimedCappedSettings.should_reclaim (s : TimedCappedSettings) (now : Nat)
    (hazard_pointer_count retired_count : Int) : Bool × TimedCappedSettings :=
  if s.retired_threshold ≤ retired_count ∧
      hazard_pointer_count * s.hazard_pointer_multiplier ≤ retired_count then
    (true, s)
  else
    s.check_sync_time now

/-- `ReclaimStrategy::should_reclaim`: `Eager` always fires, `Manual` never
fires, `TimedCapped` delegates to its settings. -/
def ReclaimStrategy.should_reclaim :
    ReclaimStrategy → Nat → Int → Int → Bool × ReclaimStrategy
  | .eager, _, _, _ => (true, .eager)
  | .timedCapped s, now, hazCount, retCount =>
      let out := s.should_reclaim now hazCount retCount
      (out.1, .timedCapped out.2)
  | .manual, _, _, _ => (false, .manual)

/-- The state of a `Domain` (`src/domain/mod.rs`): the hazard-pointer list
(head first), the retire list (head first) with its counter, and the
reclamation strategy. -/
structure DomainState where
  hazList : List HazSlot
  retired : List Retire
  retiredCount : Int
  strategy : ReclaimStrategy
deriving DecidableEq

/-- `Domain::get_guarded_ptrs`: walk the hazard-pointer list and collect every
non-null protected pointer; null protected values are skipped and the `active`
flag is not consulted. -/
def get_guarded_ptrs (slots : List HazSlot) : List Nat :=
  slots.filterMap (fun s => if s.ptr = 0 then none else some s.ptr)

/-- The walk inside `Domain::reclaim_unguarded`: each entry whose address is
in the guarded set is pushed onto the front of the survivor chain
(`still_retired`); every other entry has its dropper invoked (logged in
`dropped`) and its node freed, incrementing `reclaimed`. -/
def reclaim_unguarded_loop (guarded : List Nat) :
    List Retire → List Retire → Nat → List Nat → List Retire × Nat × List Nat
  | [], still_retired, reclaimed, dropped => (still_retired, reclaimed, dropped)
  | node :: rest, still_retired, reclaimed, dropped =>
    if guarded.contains node.ptr then
      reclaim_unguarded_loop guarded rest (node :: still_retired) reclaimed dropped
    else
      reclaim_unguarded_loop guarded rest still_retired (reclaimed + 1)
        (dropped ++ [node.ptr])

/-- `Domain::reclaim_unguarded`: walk the drained chain, then, when the
survivor chain is non-empty, splice it back at the retire-list head via
`push_all`, adding the number of survivors to the counter.  Returns the new
domain state, the number of reclaimed entries, and the dropper log. -/
def reclaim_unguarded (d : DomainState) (guarded : List Nat)
    (chain : List Retire) : DomainState × Nat × List Nat :=
  let out := reclaim_unguarded_loop guarded chain [] 0 []
  if out.1.isEmpty then
    (d, out.2.1, out.2.2)
  else
    ({ d with
        retired := out.1 ++ d.retired,
        retiredCount := d.retiredCount + out.1.length },
      out.2.1, out.2.2)

/-- `Domain::bulk_reclaim`: atomically swap the retire-list head to null and
store the counter to zero; if the drained chain is empty return 0, otherwise
collect the guarded pointers and run `reclaim_unguarded`. -/
def bulk_reclaim (d : DomainState) : DomainState × Nat × List Nat :=
  let chain := d.retired
  let drained := { d with retired := ([] : List Retire), retiredCount := 0 }
  if chain.isEmpty then
    (drained, 0, [])
  else
    reclaim_unguarded drained (get_guarded_ptrs d.hazList) chain

theorem contains_true_iff_mem (l : List Nat) (a : Nat) :
    l.contains a = true ↔ a ∈ l := by
  simp

theorem reclaim_unguarded_loop_eq (guarded : List Nat) (l : List Retire)
    (still : List Retire) (r : Nat) (dr : List Nat) :
    reclaim_unguarded_loop guarded l still r dr =
      ((l.filter (fun e => guarded.contains e.ptr)).reverse ++ still,
        r + (l.filter (fun e => !guarded.contains e.ptr)).length,
        dr ++ (l.filter (fun e => !guarded.contains e.ptr)).map Retire.ptr) := by
  induction l generalizing still r dr with
  | nil =>
    simp only [reclaim_unguarded_loop, List.filter_nil, List.reverse_nil,
      List.nil_append, List.length_nil, Nat.add_zero, List.map_nil,
      List.append_nil]
  | cons a t ih =>
    by_cases h : guarded.contains a.ptr
    · simp only [reclaim_unguarded_loop, h, if_true, ih, List.filter_cons,
        Bool.not_true, Bool.false_eq_true, if_false, List.reverse_cons,
        List.append_assoc, List.singleton_append]
    · simp only [Bool.not_eq_true] at h
      simp only [reclaim_unguarded_loop, h, Bool.false_eq_true, if_false,
        ih, List.filter_cons, Bool.not_false, if_true, List.length_cons,
        List.map_cons, List.append_assoc, List.singleton_append,
        Nat.add_assoc, Nat.add_comm 1]

theorem bulk_reclaim_char (d : DomainState) :
    bulk_reclaim d =
      ({ d with
          retired :=
            (d.retired.filter
              (fun e => (get_guarded_ptrs d.hazList).contains e.ptr)).reverse,
          retiredCount :=
            ((d.retired.filter
              (fun e => (get_guarded_ptrs d.hazList).contains e.ptr)).length : Int) },
        (d.retired.filter
          (fun e => !(get_guarded_ptrs d.hazList).contains e.ptr)).length,
        (d.retired.filter
          (fun e => !(get_guarded_ptrs d.hazList).contains e.ptr)).map Retire.ptr) := by
  unfold bulk_reclaim reclaim_unguarded
  by_cases hempty : d.retired.isEmpty
  · have h0 : d.retired = [] := List.isEmpty_iff.mp hempty
    simp [h0]
  · have hemptyF : d.retired.isEmpty = false := by
      cases hE : d.retired.isEmpty
      · rfl
      · exact absurd hE hempty
    simp only [hemptyF, Bool.false_eq_true, if_false, reclaim_unguarded_loop_eq,
      List.append_nil, Nat.zero_add]
    by_cases hsur :
        (d.retired.filter
          (fun e : Retire => (get_guarded_ptrs d.hazList).contains e.ptr)) = []
    · simp only [hsur, List.reverse_nil, List.isEmpty_nil, if_true,
        List.length_nil, Nat.cast_zero, List.nil_append]
    · have hsurF :
          (d.retired.filter
            (fun e : Retire =>
              (get_guarded_ptrs d.hazList).contains e.ptr)).reverse.isEmpty = false := by
        cases hE :
            (d.retired.filter
              (fun e : Retire =>
                (get_guarded_ptrs d.hazList).contains e.ptr)).reverse.isEmpty
        · rfl
        · exact absurd (List.reverse_eq_nil_iff.mp (List.isEmpty_iff.mp hE)) hsur
      simp only [hsurF, Bool.false_eq_true, if_false, List.append_nil,
        List.length_reverse, zero_add, List.nil_append]

/-- C2: `bulk_reclaim` drains the retire list (head to null, count to zero)
and, walking the drained chain, invokes the dropper of and frees every entry
whose address is not in the guarded set, splices every guarded entry into a
survivor chain re-pushed at the retire-list head with a count equal to its
length, and returns the number of entries freed (0 for an empty chain, since
then nothing is filtered out). -/
theorem bulk_reclaim_functional_spec (d : DomainState) :
    (bulk_reclaim d).1.hazList = d.hazList ∧
    (bulk_reclaim d).1.retired =
      (d.retired.filter
        (fun e => (get_guarded_ptrs d.hazList).contains e.ptr)).reverse ∧
    (bulk_reclaim d).1.retiredCount = ((bulk_reclaim d).1.retired.length : Int) ∧
    (bulk_reclaim d).2.2 =
      (d.retired.filter
        (fun e => !(get_guarded_ptrs d.hazList).contains e.ptr)).map Retire.ptr ∧
    (bulk_reclaim d).2.1 = (bulk_reclaim d).2.2.length := by
  rw [bulk_reclaim_char]
  refine ⟨rfl, rfl, ?_, rfl, ?_⟩
  · simp
  · simp

theorem mem_get_guarded_ptrs (slots : List HazSlot) (p : Nat) :
    p ∈ get_guarded_ptrs slots ↔ p ≠ 0 ∧ ∃ s ∈ slots, s.ptr = p := by
  unfold get_guarded_ptrs
  rw [List.mem_filterMap]
  constructor
  · rintro ⟨s, hs, hf⟩
    by_cases h0 : s.ptr = 0
    · rw [if_pos h0] at hf
      exact absurd hf (by simp)
    · rw [if_neg h0] at hf
      have hsp : s.ptr = p := Option.some.inj hf
      exact ⟨hsp ▸ h0, s, hs, hsp⟩
  · rintro ⟨hp, s, hs, rfl⟩
    exact ⟨s, hs, by rw [if_neg hp]⟩

theorem get_guarded_ptrs_ignores_active (slots : List HazSlot)
    (g : HazSlot → Bool) :
    get_guarded_ptrs (slots.map (fun s => { s with active := g s })) =
      get_guarded_ptrs slots := by
  induction slots with
  | nil => rfl
  | cons a t ih =>
    unfold get_guarded_ptrs at ih ⊢
    simp only [List.map_cons, List.filterMap_cons]
    by_cases h0 : a.ptr = 0
    · simp only [h0, if_pos, ih]
    · simp only [h0, if_neg, ih]

theorem bulk_reclaim_dropped (d : DomainState) :
    (bulk_reclaim d).2.2 =
      (d.retired.filter
        (fun e => !(get_guarded_ptrs d.hazList).contains e.ptr)).map Retire.ptr := by
  rw [bulk_reclaim_char]

theorem bulk_reclaim_retired (d : DomainState) :
    (bulk_reclaim d).1.retired =
      (d.retired.filter
        (fun e => (get_guarded_ptrs d.hazList).contains e.ptr)).reverse := by
  rw [bulk_reclaim_char]

/-- C3: when `bulk_reclaim` collects the guarded set, a slot whose protected
field is null contributes nothing: guarded membership holds exactly for the
non-null protected pointers, the `active` flag is never consulted, and a
retired entry protected only by null (released) slots is reclaimed. -/
theorem guarded_set_excludes_null_slots (slots : List HazSlot) (p : Nat)
    (g : HazSlot → Bool) (d : DomainState) (e : Retire)
    (he : e ∈ d.retired)
    (hg : ∀ s ∈ d.hazList, s.ptr = e.ptr → s.ptr = 0) :
    (p ∈ get_guarded_ptrs slots ↔ p ≠ 0 ∧ ∃ s ∈ slots, s.ptr = p) ∧
    get_guarded_ptrs (slots.map (fun s => { s with active := g s })) =
      get_guarded_ptrs slots ∧
    e.ptr ∈ (bulk_reclaim d).2.2 := by
  refine ⟨mem_get_guarded_ptrs slots p, get_guarded_ptrs_ignores_active slots g, ?_⟩
  have hnot : e.ptr ∉ get_guarded_ptrs d.hazList := by
    rw [mem_get_guarded_ptrs]
    rintro ⟨hne, s, hs, hsp⟩
    exact hne (hsp ▸ hg s hs hsp)
  rw [bulk_reclaim_dropped, List.mem_map]
  refine ⟨e, ?_, rfl⟩
  rw [List.mem_filter]
  refine ⟨he, ?_⟩
  have hcf : (get_guarded_ptrs d.hazList).contains e.ptr = false := by
    cases hcc : (get_guarded_ptrs d.hazList).contains e.ptr
    · rfl
    · exact absurd ((contains_true_iff_mem _ _).mp hcc) hnot
  rw [hcf]
  rfl

/-- Witness for C3 at a concrete input: one released (null) slot, one retired
entry at address 7 which is reclaimed despite the released slot. -/
theorem guarded_set_excludes_null_slots_witness :
    (({ ptr := 7 } : Retire) ∈
        [({ ptr := 7 } : Retire)] ∧
      ∀ s ∈ [({ ptr := 0, active := false } : HazSlot)],
        s.ptr = ({ ptr := 7 } : Retire).ptr → s.ptr = 0) ∧
    ((3 ∈ get_guarded_ptrs [({ ptr := 0, active := false } : HazSlot)] ↔
        3 ≠ 0 ∧ ∃ s ∈ [({ ptr := 0, active := false } : HazSlot)], s.ptr = 3) ∧
      get_guarded_ptrs
          ([({ ptr := 0, active := false } : HazSlot)].map
            (fun s => { s with active := true })) =
        get_guarded_ptrs [({ ptr := 0, active := false } : HazSlot)] ∧
      ({ ptr := 7 } : Retire).ptr ∈
        (bulk_reclaim
          { hazList := [{ ptr := 0, active := false }],
            retired := [{ ptr := 7 }], retiredCount := 1,
            strategy := ReclaimStrategy.eager }).2.2) :=
  ⟨⟨by decide, by decide⟩,
    guarded_set_excludes_null_slots
      [({ ptr := 0, active := false } : HazSlot)] 3 (fun _ => true)
      { hazList := [{ ptr := 0, active := false }],
        retired := [{ ptr := 7 }], retiredCount := 1,
        strategy := ReclaimStrategy.eager }
      { ptr := 7 } (by decide) (by decide)⟩

/-- The protect-and-validate loop of `AtomBox::load` (src/lib.rs).  `p`
is the last pointer read from the target; `reads` is the trace of values
returned by the subsequent validating loads of the target (an exhausted
trace means the target is no longer being modified).  Each iteration stores
`p` into the hazard slot (`protect`), re-reads the target as `q`, commits if
`q = p`, and otherwise resets the slot and retries with `q`.  Returns the
validated pointer together with the final hazard-slot state. -/
def loadLoop (slot : HazSlot) : Nat → List Nat → Nat × HazSlot
  | p, [] => (p, { slot with ptr := p })
  | p, q :: rest =>
    if q = p then (p, { slot with ptr := p })
    else loadLoop { slot with ptr := 0 } q rest

theorem loadLoop_protects (slot : HazSlot) (p : Nat) (reads : List Nat) :
    (loadLoop slot p reads).2.ptr = (loadLoop slot p reads).1 := by
  induction reads generalizing slot p with
  | nil => rfl
  | cons q rest ih =>
    by_cases h : q = p
    · simp [loadLoop, h]
    · simp [loadLoop, h, ih]

/-- C1: a committed `load` leaves its hazard slot protecting exactly the
returned pointer `p`; consequently, while that slot is in the domain's hazard
list, any `bulk_reclaim` places `p` in the guarded set, does not invoke the
dropper of a retire entry at address `p`, and re-pushes that entry onto the
retire list, so the dropper can only run after the guard is dropped. -/
theorem load_guard_protects (slot : HazSlot) (p0 : Nat) (reads : List Nat)
    (d : DomainState) (e : Retire)
    (hmem : (loadLoop slot p0 reads).2 ∈ d.hazList)
    (hp : (loadLoop slot p0 reads).1 ≠ 0)
    (he : e ∈ d.retired)
    (heq : e.ptr = (loadLoop slot p0 reads).1) :
    (loadLoop slot p0 reads).2.ptr = (loadLoop slot p0 reads).1 ∧
    (loadLoop slot p0 reads).1 ∈ get_guarded_ptrs d.hazList ∧
    (loadLoop slot p0 reads).1 ∉ (bulk_reclaim d).2.2 ∧
    e ∈ (bulk_reclaim d).1.retired := by
  have hprot := loadLoop_protects slot p0 reads
  have hmemg : (loadLoop slot p0 reads).1 ∈ get_guarded_ptrs d.hazList :=
    (mem_get_guarded_ptrs d.hazList _).mpr
      ⟨hp, (loadLoop slot p0 reads).2, hmem, hprot⟩
  have hcontains : (get_guarded_ptrs d.hazList).contains e.ptr = true := by
    rw [contains_true_iff_mem, heq]
    exact hmemg
  refine ⟨hprot, hmemg, ?_, ?_⟩
  · rw [bulk_reclaim_dropped, List.mem_map]
    rintro ⟨e', he'f, he'p⟩
    rw [List.mem_filter] at he'f
    have hcf : (get_guarded_ptrs d.hazList).contains e'.ptr = false := by
      have h2 := he'f.2
      cases hb : (get_guarded_ptrs d.hazList).contains e'.ptr
      · rfl
      · rw [hb] at h2
        exact absurd h2 (by decide)
    rw [he'p] at hcf
    have : (loadLoop slot p0 reads).1 ∉ get_guarded_ptrs d.hazList := by
      intro hmm
      rw [(contains_true_iff_mem _ _).mpr hmm] at hcf
      exact Bool.true_eq_false.mp hcf
    exact this hmemg
  · rw [bulk_reclaim_retired, List.mem_reverse, List.mem_filter]
    exact ⟨he, hcontains⟩

/-- Concrete domain used by the C1 witness. -/
def c1Domain : DomainState :=
  { hazList := [{ ptr := 5, active := true }],
    retired := [{ ptr := 5 }],
    retiredCount := 1,
    strategy := ReclaimStrategy.eager }

/-- Concrete load used by the C1 witness. -/
def c1Load : Nat × HazSlot := loadLoop { ptr := 0, active := true } 5 []

/-- Witness for C1 at a concrete input. -/
theorem load_guard_protects_witness :
    (c1Load.2 ∈ c1Domain.hazList ∧ c1Load.1 ≠ 0 ∧
      ({ ptr := 5 } : Retire) ∈ c1Domain.retired ∧
      ({ ptr := 5 } : Retire).ptr = c1Load.1) ∧
    (c1Load.2.ptr = c1Load.1 ∧
      c1Load.1 ∈ get_guarded_ptrs c1Domain.hazList ∧
      c1Load.1 ∉ (bulk_reclaim c1Domain).2.2 ∧
      ({ ptr := 5 } : Retire) ∈ (bulk_reclaim c1Domain).1.retired) :=
  ⟨⟨by decide, by decide, by decide, by decide⟩,
    load_guard_protects { ptr := 0, active := true } 5 [] c1Domain
      { ptr := 5 } (by decide) (by decide) (by decide) (by decide)⟩

/-- Push one entry onto the retire list (`self.retired.push(Retire::new(value))`
inside `Domain::retire`), incrementing the counter by one. -/
def DomainState.push_retired (d : DomainState) (p : Nat) : DomainState :=
  { d with retired := { ptr := p } :: d.retired,
           retiredCount := d.retiredCount + 1 }

/-- `Domain::should_reclaim`: queries the strategy, passing the retired count
as both `hazard_pointer_count` and `retired_count` (exactly as the source
does: `self.retired.count` is loaded for both arguments). -/
def DomainState.should_reclaim (d : DomainState) (now : Nat) :
    Bool × ReclaimStrategy :=
  d.strategy.should_reclaim now d.retiredCount d.retiredCount

/-- `Domain::retire`: push the entry, then if `should_reclaim()` fires run
`bulk_reclaim`.  Returns the new domain state and the dropper log of the
triggered reclamation (empty if none fired). -/
def DomainState.retire (d : DomainState) (p : Nat) (now : Nat) :
    DomainState × List Nat :=
  let d1 := d.push_retired p
  let d2 := { d1 with strategy := (d1.should_reclaim now).2 }
  if (d1.should_reclaim now).1 then
    ((bulk_reclaim d2).1, (bulk_reclaim d2).2.2)
  else
    (d2, [])

/-- The combined state of one `AtomBox` together with its `Domain`:
the allocation counter (`Box::into_raw` returns `nextAddr`, never 0),
the target pointer, the domain, and the log of addresses whose dropper
has run. -/
structure AtomBoxState where
  nextAddr : Nat
  boxPtr : Nat
  dom : DomainState
  dropped : List Nat
deriving DecidableEq

/-- `AtomBox::new_with_domain` on a fresh domain with the given strategy:
the initial value is allocated at address 1. -/
def atomBoxNew (strategy : ReclaimStrategy) : AtomBoxState :=
  { nextAddr := 2, boxPtr := 1,
    dom := { hazList := [], retired := [], retiredCount := 0,
             strategy := strategy },
    dropped := [] }

/-- `AtomBox::swap`: allocate the new value (`Box::into_raw`) and atomically
exchange it into the target; returns the previous pointer wrapped in a
`StoreGuard`. -/
def AtomBoxState.swap (m : AtomBoxState) : AtomBoxState × Nat :=
  ({ m with nextAddr := m.nextAddr + 1, boxPtr := m.nextAddr }, m.boxPtr)

/-- `impl Drop for StoreGuard`: retire the guarded pointer to the domain. -/
def AtomBoxState.dropStoreGuard (m : AtomBoxState) (p : Nat) (now : Nat) :
    AtomBoxState :=
  let out := m.dom.retire p now
  { m with dom := out.1, dropped := m.dropped ++ out.2 }

/-- `AtomBox::store`: swap and immediately drop the returned `StoreGuard`. -/
def AtomBoxState.store (m : AtomBoxState) (now : Nat) : AtomBoxState :=
  (m.swap).1.dropStoreGuard (m.swap).2 now

/-- A sequence of `n` stores; `times k` is the clock value observed by the
`k`-th retire. -/
def runStores (times : Nat → Nat) : Nat → AtomBoxState → AtomBoxState
  | 0, m => m
  | n + 1, m => runStores times n (m.store (times n))

/-- `impl Drop for Domain`: one final unconditional `bulk_reclaim` (the code
then asserts that the retire-list head is null). -/
def AtomBoxState.dropDomain (m : AtomBoxState) : AtomBoxState :=
  { m with dom := (bulk_reclaim m.dom).1,
           dropped := m.dropped ++ (bulk_reclaim m.dom).2.2 }

theorem bulk_reclaim_no_hazards (d : DomainState) (h : d.hazList = []) :
    (bulk_reclaim d).1.hazList = [] ∧
    (bulk_reclaim d).1.retired = [] ∧
    (bulk_reclaim d).1.retiredCount = 0 ∧
    (bulk_reclaim d).1.strategy = d.strategy ∧
    (bulk_reclaim d).2.2 = d.retired.map Retire.ptr := by
  have hg : get_guarded_ptrs d.hazList = [] := by rw [h]; rfl
  have hf1 : (fun e : Retire => (get_guarded_ptrs d.hazList).contains e.ptr) =
      fun _ : Retire => false := by
    funext e
    rw [hg]
    rfl
  have hf2 : (fun e : Retire => !(get_guarded_ptrs d.hazList).contains e.ptr) =
      fun _ : Retire => true := by
    funext e
    rw [hg]
    rfl
  rw [bulk_reclaim_char, hf1, hf2]
  simp [h]

theorem dropStoreGuard_count (m : AtomBoxState) (p now : Nat)
    (hhaz : m.dom.hazList = []) :
    (m.dropStoreGuard p now).dom.hazList = [] ∧
    (m.dropStoreGuard p now).boxPtr = m.boxPtr ∧
    (m.dropStoreGuard p now).nextAddr = m.nextAddr ∧
    ∀ a : Nat,
      ((m.dropStoreGuard p now).dropped ++
        (m.dropStoreGuard p now).dom.retired.map Retire.ptr).count a =
      (m.dropped ++ p :: m.dom.retired.map Retire.ptr).count a := by
  simp only [AtomBoxState.dropStoreGuard, DomainState.retire]
  split
  · -- reclamation fired
    have hno := bulk_reclaim_no_hazards
      { m.dom.push_retired p with
          strategy := ((m.dom.push_retired p).should_reclaim now).2 }
      hhaz
    refine ⟨hno.1, by trivial, by trivial, ?_⟩
    intro a
    rw [hno.2.2.2.2, hno.2.1]
    simp [DomainState.push_retired, List.count_append]
  · -- no reclamation
    refine ⟨hhaz, by trivial, by trivial, ?_⟩
    intro a
    simp [DomainState.push_retired, List.count_append]

/-- Invariant after `n` stores from a fresh box: the target holds address
`n + 1`, the allocator is at `n + 2`, there are no hazard pointers, and the
addresses `1..n` occur exactly once in the union of the dropper log and the
retire list while no other address occurs. -/
def storesInv (n : Nat) (m : AtomBoxState) : Prop :=
  m.boxPtr = n + 1 ∧ m.nextAddr = n + 2 ∧ m.dom.hazList = [] ∧
  ∀ a : Nat, (m.dropped ++ m.dom.retired.map Retire.ptr).count a =
    if 1 ≤ a ∧ a ≤ n then 1 else 0

theorem atomBoxNew_inv (strategy : ReclaimStrategy) :
    storesInv 0 (atomBoxNew strategy) := by
  refine ⟨rfl, rfl, rfl, ?_⟩
  intro a
  rw [if_neg (by omega)]
  rfl

theorem store_inv (n : Nat) (m : AtomBoxState) (now : Nat)
    (h : storesInv n m) : storesInv (n + 1) (m.store now) := by
  obtain ⟨hbox, hnext, hhaz, hcount⟩ := h
  have hswap : (m.swap).1.dom.hazList = [] := hhaz
  have hd := dropStoreGuard_count (m.swap).1 (m.swap).2 now hswap
  refine ⟨?_, ?_, hd.1, ?_⟩
  · have hb : (m.store now).boxPtr = m.nextAddr := hd.2.1
    rw [hb]
    omega
  · have hn : (m.store now).nextAddr = m.nextAddr + 1 := hd.2.2.1
    rw [hn]
    omega
  · intro a
    have hstep :
        ((m.store now).dropped ++
          (m.store now).dom.retired.map Retire.ptr).count a =
        (m.dropped ++ m.boxPtr :: m.dom.retired.map Retire.ptr).count a :=
      hd.2.2.2 a
    rw [hstep]
    have hc := hcount a
    simp only [List.count_append, List.count_cons, beq_iff_eq] at hc ⊢
    split_ifs at hc ⊢ <;> omega

theorem runStores_inv (times : Nat → Nat) (n : Nat) :
    ∀ (k : Nat) (m : AtomBoxState), storesInv k m →
      storesInv (k + n) (runStores times n m) := by
  induction n with
  | zero => intro k m h; exact h
  | succ n ih =>
    intro k m h
    have h1 : storesInv (k + 1) (m.store (times n)) := store_inv k m _ h
    have h2 := ih (k + 1) _ h1
    have harith : k + 1 + n = k + (n + 1) := by omega
    rw [harith] at h2
    exact h2

/-- C7 counterexample: install v1 (address 2) over v0 (address 1) with one
swap under the Eager strategy, dropping every guard, then destroy the
Domain.  The dropper of the final value v1 has then run zero times, not
exactly once as the claim requires: the `AtomBox` never retires its final
value (there is no `Drop` impl for `AtomBox`), so v1 leaks. -/
theorem drop_count_conservation_counterexample :
    ((runStores (fun _ => 0) 1
        (atomBoxNew ReclaimStrategy.eager)).dropDomain.dropped.count 2 = 0) ∧
    ¬ ((runStores (fun _ => 0) 1
        (atomBoxNew ReclaimStrategy.eager)).dropDomain.dropped.count 2 = 1) := by
  decide

/-- C7 (amended): for any sequence of n stores installing v1..vn (addresses
2..n+1) over v0 (address 1), under any reclaim strategy and any clock, with
every guard dropped, once the Domain is destroyed the droppers of the
replaced values v0..v(n-1) (addresses 1..n) have each run exactly once, the
retire list is empty, and the final value vn (address n+1) has not been
dropped (it is leaked, since `AtomBox` has no `Drop`). -/
theorem drop_count_conservation (strategy : ReclaimStrategy)
    (times : Nat → Nat) (n : Nat) :
    (runStores times n (atomBoxNew strategy)).dropDomain.dom.retired = [] ∧
    (∀ a : Nat, 1 ≤ a → a ≤ n →
      (runStores times n (atomBoxNew strategy)).dropDomain.dropped.count a = 1) ∧
    (runStores times n (atomBoxNew strategy)).dropDomain.dropped.count (n + 1)
      = 0 := by
  have hinv := runStores_inv times n 0 _ (atomBoxNew_inv strategy)
  rw [Nat.zero_add] at hinv
  obtain ⟨hbox, hnext, hhaz, hcount⟩ := hinv
  have hno := bulk_reclaim_no_hazards
    (runStores times n (atomBoxNew strategy)).dom hhaz
  refine ⟨hno.2.1, ?_, ?_⟩
  · intro a h1 h2
    have hc := hcount a
    rw [if_pos ⟨h1, h2⟩] at hc
    have hfin :
        (runStores times n (atomBoxNew strategy)).dropDomain.dropped =
        (runStores times n (atomBoxNew strategy)).dropped ++
          (runStores times n (atomBoxNew strategy)).dom.retired.map Retire.ptr := by
      show (runStores times n (atomBoxNew strategy)).dropped ++
          (bulk_reclaim (runStores times n (atomBoxNew strategy)).dom).2.2 = _
      rw [hno.2.2.2.2]
    rw [hfin]
    exact hc
  · have hc := hcount (n + 1)
    rw [if_neg (by omega)] at hc
    have hfin :
        (runStores times n (atomBoxNew strategy)).dropDomain.dropped =
        (runStores times n (atomBoxNew strategy)).dropped ++
          (runStores times n (atomBoxNew strategy)).dom.retired.map Retire.ptr := by
      show (runStores times n (atomBoxNew strategy)).dropped ++
          (bulk_reclaim (runStores times n (atomBoxNew strategy)).dom).2.2 = _
      rw [hno.2.2.2.2]
    rw [hfin]
    exact hc

/-- Witness for C7 (amended) at n = 2 under the Eager strategy. -/
theorem drop_count_conservation_witness :
    ((1 : Nat) ≤ 1 ∧ (1 : Nat) ≤ 2) ∧
    ((runStores (fun _ => 0) 2
        (atomBoxNew ReclaimStrategy.eager)).dropDomain.dom.retired = [] ∧
      (runStores (fun _ => 0) 2
        (atomBoxNew ReclaimStrategy.eager)).dropDomain.dropped.count 1 = 1 ∧
      (runStores (fun _ => 0) 2
        (atomBoxNew ReclaimStrategy.eager)).dropDomain.dropped.count 3 = 0) :=
  ⟨⟨by decide, by decide⟩,
    (drop_count_conservation ReclaimStrategy.eager (fun _ => 0) 2).1,
    (drop_count_conservation ReclaimStrategy.eager (fun _ => 0) 2).2.1 1
      (by decide) (by decide),
    (drop_count_conservation ReclaimStrategy.eager (fun _ => 0) 2).2.2⟩

/-- Result of `AtomBox::compare_exchange`(`_weak`): `ok` carries the
`StoreGuard` pointer over the previous value; `err` carries the `LoadGuard`
over the observed current pointer together with its hazard slot, which is
`none` on this path. -/
inductive CasOutcome where
  | ok (storeGuardPtr : Nat)
  | err (loadGuardPtr : Nat) (hazSlot : Option Nat)
deriving DecidableEq

/-- `AtomBox::compare_exchange`: allocate the new value (`Box::into_raw`,
returning `nextAddr`), then CAS the target from the expected pointer to the
new one.  On success the previous pointer is returned in a `StoreGuard`; on
failure the observed pointer is returned in a `LoadGuard` with no hazard
slot, and nothing further is done with the fresh allocation.  The middle
component of the result is the address of the fresh allocation. -/
def AtomBoxState.compare_exchange (m : AtomBoxState) (expectedPtr : Nat) :
    AtomBoxState × Nat × CasOutcome :=
  if m.boxPtr = expectedPtr then
    ({ m with nextAddr := m.nextAddr + 1, boxPtr := m.nextAddr },
      m.nextAddr, .ok m.boxPtr)
  else
    ({ m with nextAddr := m.nextAddr + 1 }, m.nextAddr, .err m.boxPtr none)

/-- `AtomBox::compare_exchange_weak`: identical to `compare_exchange` except
that the CAS may spuriously fail; `spurious = true` forces a failure even
when the comparison succeeds. -/
def AtomBoxState.compare_exchange_weak (m : AtomBoxState) (expectedPtr : Nat)
    (spurious : Bool) : AtomBoxState × Nat × CasOutcome :=
  if m.boxPtr = expectedPtr ∧ spurious = false then
    ({ m with nextAddr := m.nextAddr + 1, boxPtr := m.nextAddr },
      m.nextAddr, .ok m.boxPtr)
  else
    ({ m with nextAddr := m.nextAddr + 1 }, m.nextAddr, .err m.boxPtr none)

/-- C4 (code bug): evaluating the failure path at a concrete input.  On a
fresh box (current pointer 1) a `compare_exchange` with stale expected
pointer 7 fails: the `Err` holds the observed pointer 1 with no hazard slot
(as the claim says), but the fresh allocation (address 2) is leaked — its
dropper has run zero times (not exactly once), it is not retired, and it was
never installed, with no code path left that could ever free it.  The same
holds for `compare_exchange_weak`.  The claim (and spec section 9) require
the allocation to be freed on the spot. -/
theorem compare_exchange_failure_leaks :
    ((atomBoxNew ReclaimStrategy.eager).compare_exchange 7).2.2 =
      CasOutcome.err 1 none ∧
    ((atomBoxNew ReclaimStrategy.eager).compare_exchange 7).2.1 = 2 ∧
    ((atomBoxNew ReclaimStrategy.eager).compare_exchange 7).1.boxPtr = 1 ∧
    ((atomBoxNew ReclaimStrategy.eager).compare_exchange 7).1.dropped.count 2
      = 0 ∧
    ((atomBoxNew ReclaimStrategy.eager).compare_exchange 7).1.dom.retired
      = [] ∧
    ((atomBoxNew ReclaimStrategy.eager).compare_exchange_weak 7 false).2.2 =
      CasOutcome.err 1 none ∧
    ((atomBoxNew
        ReclaimStrategy.eager).compare_exchange_weak 7 false).1.dropped.count 2
      = 0 ∧
    ((atomBoxNew ReclaimStrategy.eager).compare_exchange_weak 7 false).1.dom.retired
      = [] := by
  decide

/-- The domain id reserved for the process-global shared domain
(`SHARED_DOMAIN_ID` in src/lib.rs). -/
def SHARED_DOMAIN_ID : Nat := 0

/-- `Domain::new` (src/domain/mod.rs): construct a domain with the given
strategy.  The guard `assert!(DOMAIN_ID != crate::SHARED_DOMAIN_ID)` is
compiled only under `cfg(all(nightly, not(loom)))`; `nightly` models that
configuration flag.  `none` models the assertion panic. -/
def domain_new (nightly : Bool) (domain_id : Nat) (rs : ReclaimStrategy) :
    Option DomainState :=
  if nightly = true ∧ domain_id = SHARED_DOMAIN_ID then
    none
  else
    some { hazList := [], retired := [], retiredCount := 0, strategy := rs }

/-- C9 counterexample: on a non-nightly (stable) build, constructing a
non-default `Domain` with the reserved id 0 succeeds — the violation is not
detected at construction time, contrary to the claim. -/
theorem domain_new_id0_not_detected_on_stable :
    (domain_new false SHARED_DOMAIN_ID ReclaimStrategy.eager).isSome = true := by
  decide

/-- C9 (amended): constructing a non-default `Domain` with the reserved id 0
is detected at construction time (by an assertion panic) only when the crate
is built with the `nightly` cfg; on any other build the construction
succeeds unchecked, for id 0 as for any other id. -/
theorem domain_new_id0_detected_only_on_nightly (rs : ReclaimStrategy)
    (id : Nat) :
    domain_new true SHARED_DOMAIN_ID rs = none ∧
    (id ≠ SHARED_DOMAIN_ID → (domain_new true id rs).isSome = true) ∧
    (domain_new false id rs).isSome = true := by
  refine ⟨rfl, ?_, ?_⟩
  · intro hid
    rw [domain_new, if_neg]
    · rfl
    · rintro ⟨-, h0⟩
      exact hid h0
  · rw [domain_new, if_neg]
    · rfl
    · rintro ⟨h, -⟩
      exact Bool.false_ne_true h

/-- Witness for C9 (amended) at a concrete input. -/
theorem domain_new_id0_detected_only_on_nightly_witness :
    ((42 : Nat) ≠ SHARED_DOMAIN_ID) ∧
    (domain_new true SHARED_DOMAIN_ID ReclaimStrategy.manual = none ∧
      ((42 : Nat) ≠ SHARED_DOMAIN_ID →
        (domain_new true 42 ReclaimStrategy.manual).isSome = true) ∧
      (domain_new false 42 ReclaimStrategy.manual).isSome = true) :=
  ⟨by decide, domain_new_id0_detected_only_on_nightly ReclaimStrategy.manual 42⟩

/-- The policy query as the specification words it, for comparison with the
source's `Domain::should_reclaim`: `should_reclaim(hazard_count,
retire_count)` with the first argument the number of hazard pointers in the
domain's hazard list. -/
def DomainState.should_reclaim_spec_query (d : DomainState) (now : Nat) :
    Bool × ReclaimStrategy :=
  d.strategy.should_reclaim now (d.hazList.length : Int) d.retiredCount

/-- Concrete domain exhibiting the C5 defect: TimedCapped with retired
threshold 1 and hazard multiplier 2, one retired entry, no hazard pointers,
and a clock (500) that has not reached the stored next-sync time (1000). -/
def c5Domain : DomainState :=
  { hazList := [], retired := [{ ptr := 5 }], retiredCount := 1,
    strategy := ReclaimStrategy.timedCapped
      { last_sync_time := 1000, sync_timeout := 2000000000,
        hazard_pointer_multiplier := 2, retired_threshold := 1 } }

/-- C5 (code bug): `Domain::should_reclaim` loads `self.retired.count` for
both arguments of the policy query instead of passing the hazard-pointer
count first.  At the concrete input `c5Domain` with clock 500, the claim's
trigger (a) holds — retire count 1 ≥ R = 1 and 1 ≥ hazard count 0 × M = 0 —
and the timer (b) has not been reached, so under the claim a retire fires a
reclamation; the code evaluates `should_reclaim(1, 1)`, finds 1 < 1 × 2,
and does not fire. -/
theorem should_reclaim_wrong_first_argument :
    (c5Domain.should_reclaim 500).1 = false ∧
    (c5Domain.should_reclaim_spec_query 500).1 = true := by
  decide

/-- `Node::try_acquire` (src/domain/hazard_pointer_list.rs): load `active`;
succeed via CAS from `false` to `true` exactly when the slot was inactive
(the sequential embedding of the CAS always succeeds on an inactive slot). -/
def HazSlot.try_acquire (n : HazSlot) : Bool × HazSlot :=
  if n.active = false then
    (true, { n with active := true })
  else
    (false, n)

/-- `HazardPointerList::get_available`: find the first node satisfying the
source condition `!node.ptr.load(Ordering::Acquire).is_null() &&
node.try_acquire()` — the protected pointer must be non-null before
`try_acquire` is even attempted.  Returns the index of the acquired slot and
the updated list, or `none`. -/
def get_available : List HazSlot → Option (Nat × List HazSlot)
  | [] => none
  | n :: rest =>
    if n.ptr ≠ 0 ∧ (n.try_acquire).1 = true then
      some (0, (n.try_acquire).2 :: rest)
    else
      match get_available rest with
      | none => none
      | some (i, rest1) => some (i + 1, n :: rest1)

/-- `Domain::acquire_haz_ptr`: reuse a slot if `get_available` finds one,
else `push_in_use` a brand-new slot (`AtomicPtr::new(null)`, active = true)
at the head of the hazard list.  Returns the index of the acquired slot and
the updated list. -/
def acquire_haz_ptr (l : List HazSlot) : Nat × List HazSlot :=
  match get_available l with
  | some (i, l1) => (i, l1)
  | none => (0, { ptr := 0, active := true } :: l)

/-- Releasing a hazard pointer (`LoadGuard::drop`, and equally
`Domain::release_hazard_ptr` via `set_node_available`): `reset` nulls the
protected pointer first, then `release` clears the active flag. -/
def release_haz_ptr (l : List HazSlot) (i : Nat) : List HazSlot :=
  l.set i { ptr := 0, active := false }

/-- C6 (code bug): a single thread acquires a hazard pointer on an empty
hazard list (a fresh slot is pushed), protects address 42, releases the
slot (protected reset to null, then active cleared), and acquires again
with no interference.  `get_available` skips the released slot because its
protected pointer is null — the source condition requires a non-null
pointer before `try_acquire` — so a second fresh slot is pushed and the
hazard list grows to length 2, instead of the released slot being reused as
the claim requires.  Since every release path nulls the pointer before
clearing `active`, no released slot can ever be reused. -/
theorem acquire_does_not_reuse_released_slot :
    (acquire_haz_ptr []).2 = [{ ptr := 0, active := true }] ∧
    release_haz_ptr
        ((acquire_haz_ptr []).2.set (acquire_haz_ptr []).1
          { ptr := 42, active := true })
        (acquire_haz_ptr []).1 =
      [{ ptr := 0, active := false }] ∧
    get_available [{ ptr := 0, active := false }] = none ∧
    (acquire_haz_ptr [{ ptr := 0, active := false }]).2 =
      [{ ptr := 0, active := true }, { ptr := 0, active := false }] := by
  decide

/-- An `AtomBox` cell as seen by the cross-domain operations: its stored
pointer and the identity of the `Domain` it is bound to (the source asserts
`std::ptr::eq(new_value.domain, self.domain)`, a pointer-identity check on
the domain references, modelled by a numeric identity). -/
structure Cell where
  ptr : Nat
  domainId : Nat
deriving DecidableEq

/-- A `StoreGuard` (src/lib.rs): the owned pointer and the identity of the
domain it came from. -/
structure StoreGuard where
  ptr : Nat
  domainId : Nat
deriving DecidableEq

/-- A `LoadGuard` (src/lib.rs): the pointer and the optional hazard slot. -/
structure LoadGuard where
  ptr : Nat
  hazSlot : Option Nat
deriving DecidableEq

/-- Outcome of an operation whose `assert!` may fail: either the assertion
panicked with its diagnostic message, or the operation returned a value. -/
inductive PanicOr (α : Type) where
  | panicked (msg : String)
  | ok (val : α)
deriving DecidableEq

/-- `AtomBox::swap_from_guard`: assert that the guard's domain is identical
to the cell's (panicking with the diagnostic message otherwise), then
atomically exchange the guard's pointer into the target and return the
previous pointer in a new `StoreGuard`. -/
def swap_from_guard (c : Cell) (g : StoreGuard) : Cell × PanicOr StoreGuard :=
  if g.domainId = c.domainId then
    ({ c with ptr := g.ptr }, .ok { ptr := c.ptr, domainId := c.domainId })
  else
    (c, .panicked "Cannot use guarded value from different domain")

/-- `AtomBox::store_from_guard`: `swap_from_guard` with the returned guard
discarded (its drop retires the previous value to the cell's domain, which
is outside the scope of the cross-domain claim). -/
def store_from_guard (c : Cell) (g : StoreGuard) : Cell × PanicOr Unit :=
  ((swap_from_guard c g).1,
    match (swap_from_guard c g).2 with
    | .panicked msg => .panicked msg
    | .ok _ => .ok ())

/-- `AtomBox::compare_exchange_from_guard`: assert same domain, then CAS the
target from the `LoadGuard`'s pointer to the `StoreGuard`'s pointer.  On
success the previous pointer is returned; on failure the `Err` holds a
slotless `LoadGuard` over the observed pointer with the untouched
`StoreGuard`. -/
def compare_exchange_from_guard (c : Cell) (cur : LoadGuard)
    (g : StoreGuard) : Cell × PanicOr (StoreGuard ⊕ LoadGuard × StoreGuard) :=
  if g.domainId = c.domainId then
    if c.ptr = cur.ptr then
      ({ c with ptr := g.ptr },
        .ok (.inl { ptr := c.ptr, domainId := c.domainId }))
    else
      (c, .ok (.inr ({ ptr := c.ptr, hazSlot := none }, g)))
  else
    (c, .panicked "Cannot use guarded value from different domain")

/-- `AtomBox::compare_exchange_weak_from_guard`: as the strong version, but
the CAS may spuriously fail. -/
def compare_exchange_weak_from_guard (c : Cell) (cur : LoadGuard)
    (g : StoreGuard) (spurious : Bool) :
    Cell × PanicOr (StoreGuard ⊕ LoadGuard × StoreGuard) :=
  if g.domainId = c.domainId then
    if c.ptr = cur.ptr ∧ spurious = false then
      ({ c with ptr := g.ptr },
        .ok (.inl { ptr := c.ptr, domainId := c.domainId }))
    else
      (c, .ok (.inr ({ ptr := c.ptr, hazSlot := none }, g)))
  else
    (c, .panicked "Cannot use guarded value from different domain")

/-- C8: calling `store_from_guard`, `swap_from_guard`,
`compare_exchange_from_guard`, or `compare_exchange_weak_from_guard` with a
`StoreGuard` from a different `Domain` instance panics with the diagnostic
message and performs no modification: the returned cell state is exactly
the input cell, so the stored pointer of every cell involved is
unchanged. -/
theorem cross_domain_guard_panics (c : Cell) (g : StoreGuard)
    (cur : LoadGuard) (spurious : Bool)
    (h : g.domainId ≠ c.domainId) :
    store_from_guard c g =
      (c, .panicked "Cannot use guarded value from different domain") ∧
    swap_from_guard c g =
      (c, .panicked "Cannot use guarded value from different domain") ∧
    compare_exchange_from_guard c cur g =
      (c, .panicked "Cannot use guarded value from different domain") ∧
    compare_exchange_weak_from_guard c cur g spurious =
      (c, .panicked "Cannot use guarded value from different domain") := by
  have hswap : swap_from_guard c g =
      (c, .panicked "Cannot use guarded value from different domain") := by
    unfold swap_from_guard
    rw [if_neg h]
  refine ⟨?_, hswap, ?_, ?_⟩
  · unfold store_from_guard
    rw [hswap]
  · unfold compare_exchange_from_guard
    rw [if_neg h]
  · unfold compare_exchange_weak_from_guard
    rw [if_neg h]

/-- Witness for C8 at a concrete input: a guard from domain 1 used on a cell
bound to domain 0. -/
theorem cross_domain_guard_panics_witness :
    (({ ptr := 3, domainId := 1 } : StoreGuard).domainId ≠
      ({ ptr := 7, domainId := 0 } : Cell).domainId) ∧
    (store_from_guard { ptr := 7, domainId := 0 } { ptr := 3, domainId := 1 } =
      ({ ptr := 7, domainId := 0 },
        .panicked "Cannot use guarded value from different domain") ∧
    swap_from_guard { ptr := 7, domainId := 0 } { ptr := 3, domainId := 1 } =
      ({ ptr := 7, domainId := 0 },
        .panicked "Cannot use guarded value from different domain") ∧
    compare_exchange_from_guard { ptr := 7, domainId := 0 }
        { ptr := 9, hazSlot := none } { ptr := 3, domainId := 1 } =
      ({ ptr := 7, domainId := 0 },
        .panicked "Cannot use guarded value from different domain") ∧
    compare_exchange_weak_from_guard { ptr := 7, domainId := 0 }
        { ptr := 9, hazSlot := none } { ptr := 3, domainId := 1 } false =
      ({ ptr := 7, domainId := 0 },
        .panicked "Cannot use guarded value from different domain")) :=
  ⟨by decide,
    cross_domain_guard_panics { ptr := 7, domainId := 0 }
      { ptr := 3, domainId := 1 } { ptr := 9, hazSlot := none } false
      (by decide)⟩

/-- `Deref` for `LoadGuard` and `StoreGuard`:
`unsafe { self.ptr.as_ref().expect("Non null") }` — `as_ref` yields `none`
exactly when the pointer is null, in which case `expect` panics. -/
def deref_guard (p : Nat) : Option Nat :=
  if p = 0 then none else some p

theorem deref_guard_of_ne (p : Nat) (hp : p ≠ 0) :
    deref_guard p = some p := by
  unfold deref_guard
  rw [if_neg hp]

theorem loadLoop_ne_zero (slot : HazSlot) (p0 : Nat) (reads : List Nat)
    (hp0 : p0 ≠ 0) (hreads : ∀ q ∈ reads, q ≠ 0) :
    (loadLoop slot p0 reads).1 ≠ 0 := by
  induction reads generalizing slot p0 with
  | nil => exact hp0
  | cons q rest ih =>
    by_cases h : q = p0
    · simpa [loadLoop, h] using hp0
    · have hq : q ≠ 0 := hreads q (by simp)
      have hrest : ∀ r ∈ rest, r ≠ 0 := fun r hr => hreads r (by simp [hr])
      simpa [loadLoop, h] using ih { slot with ptr := 0 } q hq hrest

/-- C10: every pointer installed in an `AtomBox` target comes from
`Box::into_raw` (the allocation counter, which is positive, so never the
null address 0) or from a guard that itself holds such a pointer; hence the
target is never null, the pointer of every guard produced by `new`, `load`,
`swap`, `store`, `compare_exchange` or `swap_from_guard` is non-null, and
dereferencing a `LoadGuard` or `StoreGuard` never takes the null `expect`
branch. -/
theorem deref_never_null (m : AtomBoxState) (now : Nat) (slot : HazSlot)
    (p0 : Nat) (reads : List Nat) (c : Cell) (g : StoreGuard)
    (hb : m.boxPtr ≠ 0) (hn : 0 < m.nextAddr)
    (hp0 : p0 ≠ 0) (hreads : ∀ q ∈ reads, q ≠ 0)
    (hc : c.ptr ≠ 0) (hg : g.ptr ≠ 0) :
    (atomBoxNew m.dom.strategy).boxPtr ≠ 0 ∧
    deref_guard m.boxPtr = some m.boxPtr ∧
    ((m.swap).1.boxPtr ≠ 0 ∧ 0 < (m.swap).1.nextAddr ∧
      deref_guard (m.swap).2 = some m.boxPtr) ∧
    ((m.store now).boxPtr ≠ 0 ∧ 0 < (m.store now).nextAddr) ∧
    (∀ q : Nat,
      (m.compare_exchange q).1.boxPtr ≠ 0 ∧
      0 < (m.compare_exchange q).1.nextAddr ∧
      (∀ p, (m.compare_exchange q).2.2 = CasOutcome.ok p →
        deref_guard p = some p) ∧
      (∀ p hz, (m.compare_exchange q).2.2 = CasOutcome.err p hz →
        deref_guard p = some p ∧ hz = none)) ∧
    ((loadLoop slot p0 reads).1 ≠ 0 ∧
      deref_guard (loadLoop slot p0 reads).1 =
        some (loadLoop slot p0 reads).1) ∧
    ((swap_from_guard c g).1.ptr ≠ 0 ∧
      ∀ g1, (swap_from_guard c g).2 = PanicOr.ok g1 →
        deref_guard g1.ptr = some g1.ptr) := by
  have hload := loadLoop_ne_zero slot p0 reads hp0 hreads
  have hstoreBox : (m.store now).boxPtr = m.nextAddr := rfl
  have hstoreNext : (m.store now).nextAddr = m.nextAddr + 1 := rfl
  refine ⟨one_ne_zero, deref_guard_of_ne _ hb, ⟨?_, ?_, ?_⟩, ⟨?_, ?_⟩, ?_,
    ⟨hload, deref_guard_of_ne _ hload⟩, ?_⟩
  · show m.nextAddr ≠ 0
    omega
  · show 0 < m.nextAddr + 1
    omega
  · exact deref_guard_of_ne _ hb
  · rw [hstoreBox]
    omega
  · rw [hstoreNext]
    omega
  · intro q
    unfold AtomBoxState.compare_exchange
    by_cases hq : m.boxPtr = q
    · rw [if_pos hq]
      refine ⟨?_, ?_, ?_, ?_⟩
      · show m.nextAddr ≠ 0
        omega
      · show 0 < m.nextAddr + 1
        omega
      · intro p hp
        have : m.boxPtr = p := by injection hp
        rw [← this]
        exact deref_guard_of_ne _ hb
      · intro p hz hp
        exact CasOutcome.noConfusion hp
    · rw [if_neg hq]
      refine ⟨hb, ?_, ?_, ?_⟩
      · show 0 < m.nextAddr + 1
        omega
      · intro p hp
        exact CasOutcome.noConfusion hp
      · intro p hz hp
        have h1 : m.boxPtr = p := by injection hp
        have h2 : (none : Option Nat) = hz := by injection hp
        rw [← h1, ← h2]
        exact ⟨deref_guard_of_ne _ hb, rfl⟩
  · unfold swap_from_guard
    by_cases hdom : g.domainId = c.domainId
    · rw [if_pos hdom]
      refine ⟨hg, ?_⟩
      intro g1 hok
      have : ({ ptr := c.ptr, domainId := c.domainId } : StoreGuard) = g1 := by
        injection hok
      rw [← this]
      exact deref_guard_of_ne _ hc
    · rw [if_neg hdom]
      refine ⟨hc, ?_⟩
      intro g1 hok
      exact PanicOr.noConfusion hok

/-- Witness for C10 at a concrete input. -/
theorem deref_never_null_witness :
    ((atomBoxNew ReclaimStrategy.eager).boxPtr ≠ 0 ∧
      0 < (atomBoxNew ReclaimStrategy.eager).nextAddr ∧
      (5 : Nat) ≠ 0 ∧ (∀ q ∈ ([] : List Nat), q ≠ 0) ∧
      ({ ptr := 7, domainId := 0 } : Cell).ptr ≠ 0 ∧
      ({ ptr := 3, domainId := 0 } : StoreGuard).ptr ≠ 0) ∧
    deref_guard (atomBoxNew ReclaimStrategy.eager).boxPtr =
      some (atomBoxNew ReclaimStrategy.eager).boxPtr :=
  ⟨⟨by decide, by decide, by decide, by decide, by decide, by decide⟩,
    (deref_never_null (atomBoxNew ReclaimStrategy.eager) 0
      { ptr := 0, active := false } 5 [] { ptr := 7, domainId := 0 }
      { ptr := 3, domainId := 0 } (by decide) (by decide) (by decide)
      (by decide) (by decide) (by decide)).2.1⟩
